import Mathlib

/-!
Shallow embedding of the chioro-hubspot-integration-toolbox plugins:
the SAP C4C OData paginated reader (`sapC4cCorporateAccountsReader`) and the
two HubSpot CRM writer variants (`hubspotCrmWriter`, search-by-unique-property
strategy in `src/hubspotCrmWriter.js` and direct-id-retrieve strategy in the
unnamed variant file), together with theorems about the behaviour the
specification ascribes to them.

JavaScript values are modelled by the inductive type `JVal`; JS objects are
association lists in insertion order (property assignment updates an existing
key in place and appends a fresh key at the end, as in JS).  `undefined` is
modelled by the absence of a key (`Option.none` on lookup).  String inputs to
the writers are accepted by the source as JSON text and parsed with
`JSON.parse` first; the embedding works with the parsed value.  HTTP transport
is an injected capability; headers carry no information relevant to any claim
and are omitted from the transport signatures.
-/

/-- Model of a JavaScript (JSON-like) runtime value.  Numbers are modelled as
integers (all numbers appearing in the sources are integral). -/
inductive JVal where
  | vNull : JVal
  | vBool : Bool → JVal
  | vNum : Int → JVal
  | vStr : String → JVal
  | vArr : List JVal → JVal
  | vObj : List (String × JVal) → JVal

namespace JVal

/-- JS truthiness: `null`, `false`, `0`, `''` are falsy; objects and arrays
are always truthy. -/
def truthy : JVal → Bool
  | vNull => false
  | vBool b => b
  | vNum n => n ≠ 0
  | vStr s => s ≠ ""
  | vArr _ => true
  | vObj _ => true

/-- Property access `v[k]`: `none` models JS `undefined`. -/
def getField : JVal → String → Option JVal
  | vObj ps, k => ps.lookup k
  | _, _ => none

end JVal

mutual
/-- JS `String(v)` coercion.  Arrays join their elements with `","`
(`String([]) = ""`); `null`/`undefined` elements stringify to `""`;
plain objects stringify to `"[object Object]"`. -/
def jsToString : JVal → String
  | JVal.vNull => "null"
  | JVal.vBool true => "true"
  | JVal.vBool false => "false"
  | JVal.vNum n => toString n
  | JVal.vStr s => s
  | JVal.vArr xs => String.intercalate "," (jsToStringElems xs)
  | JVal.vObj _ => "[object Object]"

/-- Stringification of array elements for `Array.prototype.toString`. -/
def jsToStringElems : List JVal → List String
  | [] => []
  | JVal.vNull :: rest => "" :: jsToStringElems rest
  | v :: rest => jsToString v :: jsToStringElems rest
end

/-- ASCII model of `Char` lowering for JS `String.prototype.toLowerCase`
(the sources only lower-case ASCII property names). -/
def charToLowerJS (c : Char) : Char :=
  if 65 ≤ c.toNat ∧ c.toNat ≤ 90 then Char.ofNat (c.toNat + 32) else c

/-- JS `s.toLowerCase()`, ASCII model. -/
def toLowerJS (s : String) : String :=
  String.mk (s.data.map charToLowerJS)

/-- Characters left unescaped by JS `encodeURIComponent`:
`A-Z a-z 0-9 - _ . ! ~ * ' ( )`. -/
def isUnreservedURI (c : Char) : Bool :=
  (65 ≤ c.toNat ∧ c.toNat ≤ 90) ∨ (97 ≤ c.toNat ∧ c.toNat ≤ 122) ∨
    (48 ≤ c.toNat ∧ c.toNat ≤ 57) ∨
    c.toNat ∈ [45, 95, 46, 33, 126, 42, 39, 40, 41]

/-- Upper-case hexadecimal digit. -/
def hexDigit (n : Nat) : Char :=
  if n < 10 then Char.ofNat (48 + n) else Char.ofNat (55 + n)

/-- `%XX` escape of one byte. -/
def percentByte (b : Nat) : List Char :=
  [Char.ofNat 37, hexDigit (b / 16), hexDigit (b % 16)]

/-- UTF-8 bytes of a character (as natural numbers). -/
def utf8BytesOf (c : Char) : List Nat :=
  let n := c.toNat
  if n < 128 then [n]
  else if n < 2048 then [192 + n / 64, 128 + n % 64]
  else if n < 65536 then [224 + n / 4096, 128 + (n / 64) % 64, 128 + n % 64]
  else [240 + n / 262144, 128 + (n / 4096) % 64, 128 + (n / 64) % 64, 128 + n % 64]

/-- JS `encodeURIComponent`. -/
def encodeURIComponent (s : String) : String :=
  String.mk (List.flatten (s.data.map fun c =>
    if isUnreservedURI c then [c] else List.flatten ((utf8BytesOf c).map percentByte)))

/-- JS `parseInt(v, 10)` on the string coercion of `v` (`none` = `NaN`):
optional leading spaces, an optional minus sign, then leading decimal digits. -/
def parseIntJS (v : JVal) : Option Int :=
  let s := jsToString v
  let cs := s.data.dropWhile (fun c => c = Char.ofNat 32)
  match cs with
  | [] => none
  | c :: rest =>
    if c = Char.ofNat 45 then
      match rest.takeWhile (fun c => 48 ≤ c.toNat ∧ c.toNat ≤ 57) with
      | [] => none
      | ds => some (-(ds.foldl (fun acc c => acc * 10 + ((c.toNat : Int) - 48)) 0))
    else
      match (c :: rest).takeWhile (fun c => 48 ≤ c.toNat ∧ c.toNat ≤ 57) with
      | [] => none
      | ds => some (ds.foldl (fun acc c => acc * 10 + ((c.toNat : Int) - 48)) 0)

/-- JS object property assignment `obj[k] = v` on an insertion-ordered
association list: an existing key is updated in place, a fresh key is
appended at the end. -/
def setProp {α : Type} (l : List (String × α)) (k : String) (v : α) :
    List (String × α) :=
  if l.any (fun p => p.1 = k) then
    l.map (fun p => if p.1 = k then (k, v) else p)
  else
    l ++ [(k, v)]

/-- `for (var key in v)` enumeration: object entries in insertion order,
array elements keyed by their decimal index, nothing otherwise. -/
def toEntries : JVal → List (String × JVal)
  | JVal.vObj ps => ps
  | JVal.vArr xs => (xs.enum.map fun p => (toString p.1, p.2))
  | _ => []

/-- Prefix test on character lists (JS `indexOf(...) === 0`). -/
def charsHaveLead : List Char → List Char → Bool
  | _, [] => true
  | [], _ :: _ => false
  | h :: hs, n :: ns => h = n && charsHaveLead hs ns

/-- Substring occurrence test on character lists (JS `indexOf(...) !== -1`). -/
def charsHaveSub (hay needle : List Char) : Bool :=
  match hay with
  | [] => charsHaveLead [] needle
  | _ :: t => charsHaveLead hay needle || charsHaveSub t needle

/-- The shared `getConfigValue(config, key, defaultValue)` helper: a `null` or
missing entry (JS `undefined`) falls back to the default.  The Java-`Map`
access path of the source behaves identically on the modelled object shape. -/
def getConfigValue (config : JVal) (key : String) (dflt : JVal) : JVal :=
  match config with
  | JVal.vObj ps =>
    match ps.lookup key with
    | some JVal.vNull => dflt
    | some v => v
    | none => dflt
  | _ => dflt

namespace SapC4cReader

/-!
Embedding of `sapC4cCorporateAccountsReader` (the OData reader present in two
unnamed source variants; the second variant adds a configurable initial
`$skip` and an `expand` config fallback, and the first is the special case
where those config keys are absent).  Credentials/headers are omitted: the
injected transport is modelled as `getJson : String → JVal`.
-/

/-- Configuration derived once per reader instance from the config blob. -/
structure ReaderCfg where
  baseUrl : String
  endpoint : String
  pageSize : Int
  filter : JVal
  expands : JVal
  initialSkip : Int

/-- Derivation of `ReaderCfg` from the raw config, following the variable
initialization of `sapC4cCorporateAccountsReader`. -/
def sapC4cInit (config : JVal) : ReaderCfg :=
  let baseUrl := jsToString (getConfigValue config "baseUrl"
    (JVal.vStr "https://my360473.crm.ondemand.com"))
  let endpoint := jsToString (getConfigValue config "endpoint"
    (JVal.vStr "/sap/c4c/odata/v1/c4codataapi/CorporateAccountCollection"))
  let pageSize : Int :=
    match parseIntJS (getConfigValue config "pageSize" (JVal.vNum 100)) with
    | none => 100
    | some n => if n < 1 then 100 else n
  let filter := getConfigValue config "filter" (JVal.vStr "")
  let expands0 := getConfigValue config "extends" (JVal.vStr "")
  let expands :=
    if expands0.truthy then expands0
    else getConfigValue config "expand" (JVal.vStr "")
  let initialSkip : Int :=
    match parseIntJS (getConfigValue config "skip" (JVal.vNum 0)) with
    | none => 0
    | some n => if n = 0 ∨ n < 0 then 0 else n
  { baseUrl := baseUrl, endpoint := endpoint, pageSize := pageSize,
    filter := filter, expands := expands, initialSkip := initialSkip }

/-- `normalizeRecords(data)`: extract the record array from a page response.
Accepted shapes: `{d:{results:[...]}}`, `{value:[...]}`, `{results:[...]}`. -/
def normalizeRecords (data : JVal) : List JVal :=
  if ¬ data.truthy then []
  else
    match
      (match data.getField "d" with
       | some d =>
         if d.truthy then
           match d.getField "results" with
           | some (JVal.vArr rs) => some rs
           | _ => none
         else none
       | none => none) with
    | some rs => rs
    | none =>
      match data.getField "value" with
      | some (JVal.vArr rs) => rs
      | _ =>
        match data.getField "results" with
        | some (JVal.vArr rs) => rs
        | _ => []

/-- `buildUrl()`: `$top`, `$skip`, the fixed vendor flag, then optional
`$filter` and `$expand`, joined with `&`. -/
def buildUrl (cfg : ReaderCfg) (skip : Int) : String :=
  let query := ["$top=" ++ encodeURIComponent (jsToString (JVal.vNum cfg.pageSize)),
                "$skip=" ++ encodeURIComponent (jsToString (JVal.vNum skip)),
                "sap-label=true"]
  let query := if cfg.filter.truthy then
      query ++ ["$filter=" ++ encodeURIComponent (jsToString cfg.filter)]
    else query
  let query := if cfg.expands.truthy then
      query ++ ["$expand=" ++ encodeURIComponent (jsToString cfg.expands)]
    else query
  cfg.baseUrl ++ cfg.endpoint ++ "?" ++ String.intercalate "&" query

/-- Mutable reader state (`skip`, `hasMore`, `buffer`, `bufferIndex`,
`recordCount`).  Headers are omitted (no claim concerns them). -/
structure RState where
  skip : Int
  hasMore : Bool
  buffer : List JVal
  bufferIndex : Nat
  recordCount : Nat

/-- `open()`: reset state; the second variant starts at the configured
initial `$skip`. -/
def openReader (cfg : ReaderCfg) : RState :=
  { skip := cfg.initialSkip, hasMore := true, buffer := [], bufferIndex := 0,
    recordCount := 0 }

/-- `fetchNextPage()`: issue one `getJson`, replace the buffer, and either
mark the stream finished (short page) or advance the skip cursor by one page
size.  Returns the new state and the list of URLs fetched (empty or a
singleton), used to observe the remote-call trace. -/
def fetchNextPage (cfg : ReaderCfg) (getJson : String → JVal) (st : RState) :
    RState × List String :=
  if st.hasMore = false then (st, [])
  else
    let url := buildUrl cfg st.skip
    let data := getJson url
    let buf := normalizeRecords data
    if (buf.length : Int) < cfg.pageSize then
      ({ st with buffer := buf, bufferIndex := 0, hasMore := false }, [url])
    else
      ({ st with
         buffer := buf,
         bufferIndex := 0,
         skip := st.skip + cfg.pageSize }, [url])

/-- The inner `while (bufferIndex < buffer.length)` loop: emit every
remaining buffered record, advancing `bufferIndex` and `recordCount`. -/
def drainBuffer (st : RState) : List JVal × RState :=
  (st.buffer.drop st.bufferIndex,
   { st with
     bufferIndex := st.buffer.length,
     recordCount := st.recordCount + (st.buffer.length - st.bufferIndex) })

/-- The `readRecords` generator as a fuel-indexed loop: each unit of fuel is
one iteration of the outer `while (true)` loop.  Returns the emitted records,
the fetched URLs, and the final state. -/
def readRecords (cfg : ReaderCfg) (getJson : String → JVal) :
    Nat → RState → List JVal × List String × RState
  | 0, st => ([], [], st)
  | Nat.succ fuel, st =>
    if st.bufferIndex ≥ st.buffer.length then
      if st.hasMore = false then ([], [], st)
      else
        let fetched := fetchNextPage cfg getJson st
        let st1 := fetched.1
        if st1.buffer.length = 0 ∧ st1.hasMore = false then ([], fetched.2, st1)
        else
          let d := drainBuffer st1
          let rest := readRecords cfg getJson fuel d.2
          (d.1 ++ rest.1, fetched.2 ++ rest.2.1, rest.2.2)
    else
      let d := drainBuffer st
      let rest := readRecords cfg getJson fuel d.2
      (d.1 ++ rest.1, rest.2.1, rest.2.2)

end SapC4cReader

namespace HubspotTables

/-!
Static per-entity property whitelists and alias tables of
`src/hubspotCrmWriter.js`.  The JS lookups `HUBSPOT_PROPERTIES[entity] || []`
and `PROPERTY_ALIASES[entity] || {}` are modelled by total functions that
return the empty table for unknown entities.
-/

/-- `HUBSPOT_PROPERTIES`: known HubSpot property names per entity. -/
def HUBSPOT_PROPERTIES (entity : String) : List String :=
  if entity = "companies" then
    ["name", "domain", "phone", "city", "state", "country", "zip",
     "address", "address2", "industry", "numberofemployees", "annualrevenue",
     "description", "website", "lifecyclestage", "type", "about_us",
     "founded_year", "linkedinhandle", "twitterhandle", "facebookpage",
     "timezone", "total_money_raised", "hs_lead_status", "hubspot_owner_id",
     "closedate", "revenue_range", "industry_group", "state_code",
     "country_code"]
  else if entity = "contacts" then
    ["email", "firstname", "lastname", "phone", "mobilephone", "fax",
     "jobtitle", "company", "city", "state", "country", "zip", "address",
     "website", "industry", "annualrevenue", "lifecyclestage",
     "hs_lead_status", "hubspot_owner_id", "hs_email_domain", "salutation",
     "date_of_birth", "message", "numemployees", "hs_persona"]
  else if entity = "deals" then
    ["dealname", "amount", "dealstage", "pipeline", "closedate",
     "dealtype", "description", "hubspot_owner_id", "hs_priority",
     "hs_forecast_amount", "hs_forecast_probability",
     "hs_deal_stage_probability", "hs_next_step"]
  else if entity = "tickets" then
    ["subject", "content", "hs_pipeline", "hs_pipeline_stage",
     "hs_ticket_priority", "hubspot_owner_id", "hs_ticket_category",
     "hs_resolution", "source_type"]
  else []

/-- `PROPERTY_ALIASES`: alternative field name → HubSpot property name. -/
def PROPERTY_ALIASES (entity : String) : List (String × String) :=
  if entity = "companies" then
    [("company_name", "name"), ("companyName", "name"), ("CompanyName", "name"),
     ("AccountName", "name"), ("account_name", "name"), ("Name", "name"),
     ("Domain", "domain"), ("website_domain", "domain"), ("companyDomain", "domain"),
     ("WebSite", "domain"),
     ("Phone", "phone"), ("telephone", "phone"), ("phoneNumber", "phone"),
     ("PhoneNumber", "phone"), ("phone_number", "phone"),
     ("City", "city"),
     ("State", "state"), ("region", "state"), ("Region", "state"), ("StateCode", "state"),
     ("Country", "country"), ("CountryCode", "country"),
     ("Zip", "zip"), ("postalCode", "zip"), ("PostalCode", "zip"),
     ("postal_code", "zip"), ("zipCode", "zip"), ("ZipCode", "zip"),
     ("Address", "address"), ("street", "address"), ("Street", "address"),
     ("streetAddress", "address"), ("StreetAddress", "address"), ("street_address", "address"),
     ("Industry", "industry"),
     ("employees", "numberofemployees"), ("Employees", "numberofemployees"),
     ("employeeCount", "numberofemployees"), ("NumberOfEmployees", "numberofemployees"),
     ("number_of_employees", "numberofemployees"),
     ("revenue", "annualrevenue"), ("Revenue", "annualrevenue"),
     ("annual_revenue", "annualrevenue"), ("AnnualRevenue", "annualrevenue"),
     ("Description", "description"),
     ("Website", "website"), ("URL", "website"), ("url", "website"), ("homepage", "website"),
     ("lifecycle_stage", "lifecyclestage"), ("LifecycleStage", "lifecyclestage"),
     ("companyType", "type"), ("company_type", "type"), ("Type", "type"),
     ("owner_id", "hubspot_owner_id"), ("ownerId", "hubspot_owner_id"),
     ("OwnerId", "hubspot_owner_id")]
  else if entity = "contacts" then
    [("Email", "email"), ("emailAddress", "email"), ("EmailAddress", "email"),
     ("email_address", "email"), ("E_Mail", "email"),
     ("first_name", "firstname"), ("FirstName", "firstname"), ("firstName", "firstname"),
     ("givenName", "firstname"), ("GivenName", "firstname"),
     ("last_name", "lastname"), ("LastName", "lastname"), ("lastName", "lastname"),
     ("familyName", "lastname"), ("FamilyName", "lastname"), ("surname", "lastname"),
     ("Surname", "lastname"),
     ("Phone", "phone"), ("telephone", "phone"), ("phoneNumber", "phone"),
     ("PhoneNumber", "phone"), ("phone_number", "phone"),
     ("mobile", "mobilephone"), ("Mobile", "mobilephone"), ("cellphone", "mobilephone"),
     ("CellPhone", "mobilephone"), ("cell_phone", "mobilephone"),
     ("MobilePhone", "mobilephone"), ("mobile_phone", "mobilephone"),
     ("Fax", "fax"), ("FaxNumber", "fax"), ("fax_number", "fax"),
     ("job_title", "jobtitle"), ("JobTitle", "jobtitle"), ("jobTitle", "jobtitle"),
     ("title", "jobtitle"), ("Title", "jobtitle"), ("position", "jobtitle"),
     ("Position", "jobtitle"), ("FunctionName", "jobtitle"),
     ("Company", "company"), ("companyName", "company"), ("CompanyName", "company"),
     ("company_name", "company"), ("AccountName", "company"),
     ("City", "city"),
     ("State", "state"), ("region", "state"), ("Region", "state"),
     ("Country", "country"), ("CountryCode", "country"),
     ("Zip", "zip"), ("postalCode", "zip"), ("PostalCode", "zip"),
     ("postal_code", "zip"), ("zipCode", "zip"), ("ZipCode", "zip"),
     ("Address", "address"), ("street", "address"), ("Street", "address"),
     ("streetAddress", "address"), ("StreetAddress", "address"),
     ("Website", "website"), ("URL", "website"), ("url", "website"),
     ("lifecycle_stage", "lifecyclestage"), ("LifecycleStage", "lifecyclestage"),
     ("owner_id", "hubspot_owner_id"), ("ownerId", "hubspot_owner_id"),
     ("OwnerId", "hubspot_owner_id"),
     ("Salutation", "salutation"), ("TitleOfCourtesy", "salutation")]
  else if entity = "deals" then
    [("deal_name", "dealname"), ("DealName", "dealname"), ("name", "dealname"),
     ("Name", "dealname"), ("subject", "dealname"), ("Subject", "dealname"),
     ("OpportunityName", "dealname"),
     ("Amount", "amount"), ("value", "amount"), ("Value", "amount"),
     ("dealAmount", "amount"), ("deal_amount", "amount"),
     ("ExpectedRevenueAmount", "amount"),
     ("deal_stage", "dealstage"), ("DealStage", "dealstage"), ("stage", "dealstage"),
     ("Stage", "dealstage"), ("SalesPhaseCode", "dealstage"),
     ("Pipeline", "pipeline"),
     ("close_date", "closedate"), ("CloseDate", "closedate"),
     ("closingDate", "closedate"), ("ClosingDate", "closedate"),
     ("ExpectedCloseDate", "closedate"), ("expected_close_date", "closedate"),
     ("deal_type", "dealtype"), ("DealType", "dealtype"), ("type", "dealtype"),
     ("Type", "dealtype"),
     ("Description", "description"),
     ("owner_id", "hubspot_owner_id"), ("ownerId", "hubspot_owner_id"),
     ("OwnerId", "hubspot_owner_id"),
     ("priority", "hs_priority"), ("Priority", "hs_priority")]
  else if entity = "tickets" then
    [("Subject", "subject"), ("name", "subject"), ("Name", "subject"),
     ("title", "subject"), ("Title", "subject"), ("ticket_name", "subject"),
     ("Content", "content"), ("description", "content"), ("Description", "content"),
     ("body", "content"), ("Body", "content"),
     ("pipeline", "hs_pipeline"), ("Pipeline", "hs_pipeline"),
     ("stage", "hs_pipeline_stage"), ("Stage", "hs_pipeline_stage"),
     ("status", "hs_pipeline_stage"), ("Status", "hs_pipeline_stage"),
     ("pipeline_stage", "hs_pipeline_stage"),
     ("priority", "hs_ticket_priority"), ("Priority", "hs_ticket_priority"),
     ("ticket_priority", "hs_ticket_priority"),
     ("category", "hs_ticket_category"), ("Category", "hs_ticket_category"),
     ("owner_id", "hubspot_owner_id"), ("ownerId", "hubspot_owner_id"),
     ("OwnerId", "hubspot_owner_id")]
  else []

/-- `DEFAULT_UNIQUE_PROPERTIES[entity] || ''`: default upsert-lookup
property per entity. -/
def DEFAULT_UNIQUE_PROPERTIES (entity : String) : String :=
  if entity = "companies" then "domain"
  else if entity = "contacts" then "email"
  else if entity = "deals" then "dealname"
  else if entity = "tickets" then "subject"
  else ""

end HubspotTables

/-- JSON string escaping (quote and backslash; the property names and values
handled by the writers contain no control characters). -/
def quoteJson (s : String) : String :=
  "\"" ++ String.mk (List.flatten (s.data.map fun c =>
    if c.toNat = 34 ∨ c.toNat = 92 then [Char.ofNat 92, c] else [c])) ++ "\""

mutual
/-- `JSON.stringify` on the modelled values. -/
def jsonStringify : JVal → String
  | JVal.vNull => "null"
  | JVal.vBool true => "true"
  | JVal.vBool false => "false"
  | JVal.vNum n => toString n
  | JVal.vStr s => quoteJson s
  | JVal.vArr xs => "[" ++ String.intercalate "," (jsonStringifyElems xs) ++ "]"
  | JVal.vObj ps => "\x7b" ++ String.intercalate "," (jsonStringifyFields ps) ++ "\x7d"

/-- Serialized array elements. -/
def jsonStringifyElems : List JVal → List String
  | [] => []
  | v :: rest => jsonStringify v :: jsonStringifyElems rest

/-- Serialized object fields. -/
def jsonStringifyFields : List (String × JVal) → List String
  | [] => []
  | p :: rest => (quoteJson p.1 ++ ":" ++ jsonStringify p.2) :: jsonStringifyFields rest
end

/-- A flat canonical-properties mapping re-read as a JS object. -/
def propsToJVal (m : List (String × String)) : JVal :=
  JVal.vObj (m.map fun p => (p.1, JVal.vStr p.2))

namespace SearchWriter

open HubspotTables

/-!
Embedding of the search-by-unique-property writer `hubspotCrmWriter` of
`src/hubspotCrmWriter.js`.  Remote calls are observed as a trace; the
`recordCount` / `journal.onProgress` bookkeeping carries no information
relevant to any claim and is omitted.
-/

/-- Writer configuration (derived once from the config blob). -/
structure WriterCfg where
  baseUrl : String
  entity : String
  lookupProperty : String

/-- Config-derivation prefix of `hubspotCrmWriter`. -/
def hubspotCrmWriterInit (config : JVal) : WriterCfg :=
  { baseUrl := jsToString (getConfigValue config "baseUrl"
      (JVal.vStr "https://api.hubspot.com")),
    entity := jsToString (getConfigValue config "entity" (JVal.vStr "companies")),
    lookupProperty := jsToString (getConfigValue config "lookupProperty"
      (JVal.vStr "")) }

/-- `var uniqueProperty = lookupProperty || DEFAULT_UNIQUE_PROPERTIES[entity] || ''`. -/
def uniqueProperty (cfg : WriterCfg) : String :=
  if cfg.lookupProperty ≠ "" then cfg.lookupProperty
  else DEFAULT_UNIQUE_PROPERTIES cfg.entity

/-- `keyValueListToObject(list)`: fold an array of `{key,value}`-like pairs
into a flat object.  `null` and primitive items are skipped; the key is the
first truthy of `key|Key|name|Name|property|Property|field|Field`, the value
is `value` if present else `Value` if present else `''`. -/
def kvKeyOf (item : JVal) : JVal :=
  match item.getField "key" with
  | some v => if v.truthy then v else kvKeyOfTail1 item
  | none => kvKeyOfTail1 item
where
  kvKeyOfTail1 (item : JVal) : JVal :=
    match item.getField "Key" with
    | some v => if v.truthy then v else kvKeyOfTail2 item
    | none => kvKeyOfTail2 item
  kvKeyOfTail2 (item : JVal) : JVal :=
    match item.getField "name" with
    | some v => if v.truthy then v else kvKeyOfTail3 item
    | none => kvKeyOfTail3 item
  kvKeyOfTail3 (item : JVal) : JVal :=
    match item.getField "Name" with
    | some v => if v.truthy then v else kvKeyOfTail4 item
    | none => kvKeyOfTail4 item
  kvKeyOfTail4 (item : JVal) : JVal :=
    match item.getField "property" with
    | some v => if v.truthy then v else kvKeyOfTail5 item
    | none => kvKeyOfTail5 item
  kvKeyOfTail5 (item : JVal) : JVal :=
    match item.getField "Property" with
    | some v => if v.truthy then v else kvKeyOfTail6 item
    | none => kvKeyOfTail6 item
  kvKeyOfTail6 (item : JVal) : JVal :=
    match item.getField "field" with
    | some v => if v.truthy then v else kvKeyOfTail7 item
    | none => kvKeyOfTail7 item
  kvKeyOfTail7 (item : JVal) : JVal :=
    match item.getField "Field" with
    | some v => if v.truthy then v else JVal.vStr ""
    | none => JVal.vStr ""

/-- Value extraction of `keyValueListToObject`. -/
def kvValueOf (item : JVal) : JVal :=
  match item.getField "value" with
  | some v => v
  | none =>
    match item.getField "Value" with
    | some v => v
    | none => JVal.vStr ""

/-- `keyValueListToObject` itself. -/
def keyValueListToObject (list : List JVal) : List (String × JVal) :=
  list.foldl (fun obj item =>
    match item with
    | JVal.vObj _ =>
      let k := kvKeyOf item
      if k.truthy then setProp obj (jsToString k) (kvValueOf item) else obj
    | JVal.vArr _ =>
      let k := kvKeyOf item
      if k.truthy then setProp obj (jsToString k) (kvValueOf item) else obj
    | _ => obj) []

/-- `normalizeToFlat(record)`: JSON text is parsed first (the embedding works
with the parsed value); an array is folded as a key-value list; a
`{properties:{...}}` envelope (a plain object, not an array) is unwrapped;
anything else is used as-is (`toEntries` models the subsequent `for..in`). -/
def normalizeToFlat (record : JVal) : List (String × JVal) :=
  if ¬ record.truthy then []
  else
    match record with
    | JVal.vArr l => keyValueListToObject l
    | _ =>
      match record.getField "properties" with
      | some (JVal.vObj ps) => ps
      | _ => toEntries record

/-- `mapPropertyName(key)`: exact known name, else alias, else the
lower-cased key (whether or not the lower-cased form is known). -/
def mapPropertyName (entity : String) (key : String) : String :=
  if (HUBSPOT_PROPERTIES entity).contains key then key
  else
    match (PROPERTY_ALIASES entity).lookup key with
    | some v => v
    | none =>
      let lower := toLowerJS key
      if (HUBSPOT_PROPERTIES entity).contains lower then lower
      else lower

/-- The `value === null || value === undefined || value === ''` skip test
(an `undefined` value cannot occur as a present entry in the model). -/
def skipValue : JVal → Bool
  | JVal.vNull => true
  | JVal.vStr s => s = ""
  | _ => false

/-- One iteration of the `for (var key in flat)` loop of
`transformToProperties`. -/
def transformStep (entity : String) (properties : List (String × String))
    (kv : String × JVal) : List (String × String) :=
  if skipValue kv.2 then properties
  else if charsHaveLead kv.1.data "_chioro".data then properties
  else if kv.1 = "__metadata" ∨ kv.1 = "ObjectID" ∨ kv.1 = "ETag" ∨ kv.1 = "uri" then
    properties
  else setProp properties (mapPropertyName entity kv.1) (jsToString kv.2)

/-- `transformToProperties(record)`: normalize to a flat object, then filter
and resolve every entry. -/
def transformToProperties (entity : String) (record : JVal) :
    List (String × String) :=
  (normalizeToFlat record).foldl (transformStep entity) []

/-- Observable remote calls of the search-strategy writer.  Bodies are
recorded serialized: the source hands `postJson` the payload object and
`patchUrl` the `JSON.stringify`-ed payload; recording `jsonStringify` of the
payload in both cases keeps the trace type decidable. -/
inductive RemoteCall where
  | post (url : String) (body : String)
  | patch (url : String) (body : String)
deriving DecidableEq, Repr

/-- `buildObjectUrl(recordId)`. -/
def buildObjectUrl (cfg : WriterCfg) (recordId : String) : String :=
  let url := cfg.baseUrl ++ "/crm/v3/objects/" ++ cfg.entity
  if recordId ≠ "" then url ++ "/" ++ encodeURIComponent recordId else url

/-- `buildSearchUrl()`. -/
def buildSearchUrl (cfg : WriterCfg) : String :=
  cfg.baseUrl ++ "/crm/v3/objects/" ++ cfg.entity ++ "/search"

/-- The search request body of `findExistingId`. -/
def searchPayload (up uv : String) : JVal :=
  JVal.vObj
    [("filterGroups", JVal.vArr
       [JVal.vObj [("filters", JVal.vArr
         [JVal.vObj [("propertyName", JVal.vStr up), ("operator", JVal.vStr "EQ"),
                     ("value", JVal.vStr uv)]])]]),
     ("properties", JVal.vArr [JVal.vStr up]),
     ("limit", JVal.vNum 1)]

/-- Extraction of `data.results[0].id` (with the truthiness guards of the
source; a non-array `results` yields no id). -/
def extractFoundId (data : JVal) : String :=
  if ¬ data.truthy then ""
  else
    match data.getField "results" with
    | some (JVal.vArr (r0 :: _)) =>
      match r0.getField "id" with
      | some idv => if idv.truthy then jsToString idv else ""
      | none => ""
    | _ => ""

/-- `findExistingId(properties)`: issue the search `post` (recorded in the
trace) unless there is no unique property or no unique value. -/
def findExistingId (cfg : WriterCfg) (postJson : String → JVal → JVal)
    (properties : List (String × String)) : List RemoteCall × String :=
  if uniqueProperty cfg = "" then ([], "")
  else
    match properties.lookup (uniqueProperty cfg) with
    | none => ([], "")
    | some uv =>
      if uv = "" then ([], "")
      else
        let url := buildSearchUrl cfg
        let payload := searchPayload (uniqueProperty cfg) uv
        let data := postJson url payload
        ([RemoteCall.post url (jsonStringify payload)], extractFoundId data)

/-- `writeRecord(record)` of the search-strategy writer, as the list of
remote calls it issues. -/
def writeRecord (cfg : WriterCfg) (postJson : String → JVal → JVal)
    (record : JVal) : List RemoteCall :=
  let properties := transformToProperties cfg.entity record
  if properties.isEmpty then []
  else
    let found := findExistingId cfg postJson properties
    let payload := JVal.vObj [("properties", propsToJVal properties)]
    if found.2 ≠ "" then
      found.1 ++ [RemoteCall.patch (buildObjectUrl cfg found.2) (jsonStringify payload)]
    else
      found.1 ++ [RemoteCall.post (buildObjectUrl cfg "") (jsonStringify payload)]

end SearchWriter

namespace SearchWriter

/-- The key-level survival condition of `transformToProperties`: not
`_chioro`-prefixed and not one of the four excluded metadata keys. -/
def keyKeptP (k : String) : Prop :=
  charsHaveLead k.data "_chioro".data ≠ true ∧
    ¬(k = "__metadata" ∨ k = "ObjectID" ∨ k = "ETag" ∨ k = "uri")

instance (k : String) : Decidable (keyKeptP k) := by
  unfold keyKeptP
  infer_instance

/-- ASCII upper-case test. -/
def isUpperA (c : Char) : Bool :=
  65 ≤ c.toNat ∧ c.toNat ≤ 90

/-- No ASCII upper-case letter in the string. -/
def noUpper (s : String) : Bool :=
  s.data.all fun c => !isUpperA c

end SearchWriter

namespace DirectWriter

/-!
Embedding of the direct-id-retrieve writer variant `hubspotCrmWriter` (the
unnamed source file that also holds the second reader variant).  The injected
`getJson` may throw; `postJson`/`patchUrl` responses are ignored by the
source, so the transport is modelled by the retrieve outcome alone and the
issued calls are observed as a trace.
-/

/-- Writer configuration (derived once from the config blob). -/
structure WriterCfg where
  baseUrl : String
  entity : String
  idField : String
  idProperty : String

/-- Config-derivation prefix of the direct-id `hubspotCrmWriter`. -/
def hubspotCrmWriterInit (config : JVal) : WriterCfg :=
  { baseUrl := jsToString (getConfigValue config "baseUrl"
      (JVal.vStr "https://api.hubspot.com")),
    entity := jsToString (getConfigValue config "entity" (JVal.vStr "companies")),
    idField := jsToString (getConfigValue config "idField" (JVal.vStr "id")),
    idProperty := jsToString (getConfigValue config "idProperty" (JVal.vStr "")) }

/-- `getEntityPath()`. -/
def getEntityPath (cfg : WriterCfg) : String :=
  if cfg.entity = "contacts" then "contacts"
  else if cfg.entity = "deals" then "deals"
  else "companies"

/-- `buildUrl(recordId)`: object path, optional id segment, and — whenever a
custom `idProperty` is configured — the `?idProperty=` query parameter. -/
def buildUrl (cfg : WriterCfg) (recordId : String) : String :=
  let url := cfg.baseUrl ++ "/crm/v3/objects/" ++ getEntityPath cfg
  let url := if recordId ≠ "" then url ++ "/" ++ encodeURIComponent recordId else url
  if cfg.idProperty ≠ "" then
    url ++ "?idProperty=" ++ encodeURIComponent cfg.idProperty
  else url

/-- One step of the id-resolution chain of `getRecordId`: a present,
non-null field whose string form is non-empty. -/
def idCandidate : Option JVal → Option String
  | some JVal.vNull => none
  | some v => if jsToString v = "" then none else some (jsToString v)
  | none => none

/-- `getRecordId(record)`: try `id`, `recordId`, the configured `idField`,
then `idField` inside a `properties` envelope (the last without the
non-empty-string check, as in the source). -/
def getRecordId (cfg : WriterCfg) (record : JVal) : String :=
  if ¬ record.truthy then ""
  else
    match idCandidate (record.getField "id") with
    | some s => s
    | none =>
      match idCandidate (record.getField "recordId") with
      | some s => s
      | none =>
        match (if cfg.idField ≠ "" then idCandidate (record.getField cfg.idField)
               else none) with
        | some s => s
        | none =>
          match record.getField "properties" with
          | some p =>
            if p.truthy ∧ cfg.idField ≠ "" then
              match p.getField cfg.idField with
              | some JVal.vNull => ""
              | some v => jsToString v
              | none => ""
            else ""
          | none => ""

/-- `buildProperties(record)`: copy the entries of a `properties` envelope
(any non-null object, arrays included) minus the id-carrying keys; otherwise
copy the record's own entries minus the id-carrying keys and `properties`. -/
def buildProperties (cfg : WriterCfg) (record : JVal) : List (String × JVal) :=
  let envelope : Option JVal :=
    if record.truthy then
      match record.getField "properties" with
      | some (JVal.vObj ps) => some (JVal.vObj ps)
      | some (JVal.vArr xs) => some (JVal.vArr xs)
      | _ => none
    else none
  match envelope with
  | some p =>
    (toEntries p).foldl (fun props kv =>
      if kv.1 = cfg.idField ∨ kv.1 = "id" ∨ kv.1 = "recordId" then props
      else setProp props kv.1 kv.2) []
  | none =>
    match record with
    | JVal.vObj _ =>
      (toEntries record).foldl (fun props kv =>
        if kv.1 = cfg.idField ∨ kv.1 = "id" ∨ kv.1 = "recordId" ∨
           kv.1 = "properties" then props
        else setProp props kv.1 kv.2) []
    | JVal.vArr _ =>
      (toEntries record).foldl (fun props kv =>
        if kv.1 = cfg.idField ∨ kv.1 = "id" ∨ kv.1 = "recordId" ∨
           kv.1 = "properties" then props
        else setProp props kv.1 kv.2) []
    | _ => []

/-- `isNotFound(err)`: the stringified error mentions `404` or `Not Found`. -/
def isNotFound (message : String) : Bool :=
  charsHaveSub message.data "404".data ∨ charsHaveSub message.data "Not Found".data

/-- Outcome of the injected `getJson` used by `retrieveExists`: a parsed
response, or a thrown error carrying `String(err.message || err)`. -/
inductive FetchOutcome where
  | ok (response : JVal)
  | thrown (message : String)

/-- Observable remote calls of the direct-id writer (bodies recorded
serialized, as for the search writer). -/
inductive RemoteCall where
  | getCall (url : String)
  | post (url : String) (body : String)
  | patch (url : String) (body : String)
deriving DecidableEq, Repr

/-- URL of a recorded call. -/
def callUrl : RemoteCall → String
  | RemoteCall.getCall u => u
  | RemoteCall.post u _ => u
  | RemoteCall.patch u _ => u

/-- `retrieveExists(recordId)`: issue the retrieve `get`; `true` on success,
`false` on a not-found-class error, otherwise rethrow (`Except.error`). -/
def retrieveExists (cfg : WriterCfg) (getJson : String → FetchOutcome)
    (recordId : String) : List RemoteCall × Except String Bool :=
  if recordId = "" then ([], Except.ok false)
  else
    match getJson (buildUrl cfg recordId) with
    | FetchOutcome.ok _ =>
      ([RemoteCall.getCall (buildUrl cfg recordId)], Except.ok true)
    | FetchOutcome.thrown m =>
      if isNotFound m then
        ([RemoteCall.getCall (buildUrl cfg recordId)], Except.ok false)
      else ([RemoteCall.getCall (buildUrl cfg recordId)], Except.error m)

/-- `writeRecord(recordJson)` of the direct-id writer: the issued calls plus
the propagated error, if any.  A JSON-text record is parsed first (the
embedding works with the parsed value). -/
def writeRecord (cfg : WriterCfg) (getJson : String → FetchOutcome)
    (record : JVal) : List RemoteCall × Option String :=
  let recordId := getRecordId cfg record
  let properties := buildProperties cfg record
  let payload := JVal.vObj [("properties", JVal.vObj properties)]
  if recordId ≠ "" then
    match retrieveExists cfg getJson recordId with
    | (calls, Except.ok true) =>
      (calls ++ [RemoteCall.patch (buildUrl cfg recordId) (jsonStringify payload)], none)
    | (calls, Except.ok false) =>
      (calls ++ [RemoteCall.post (buildUrl cfg "") (jsonStringify payload)], none)
    | (calls, Except.error m) => (calls, some m)
  else
    ([RemoteCall.post (buildUrl cfg "") (jsonStringify payload)], none)

end DirectWriter

namespace DirectWriter

/-- Number of `post` calls in a trace. -/
def countPost (l : List RemoteCall) : Nat :=
  l.countP fun c => match c with
    | RemoteCall.post _ _ => true
    | _ => false

/-- Number of `patch` calls in a trace. -/
def countPatch (l : List RemoteCall) : Nat :=
  l.countP fun c => match c with
    | RemoteCall.patch _ _ => true
    | _ => false

/-- The object URL without any query parameter: base URL, object path and
optional id segment. -/
def objectUrlNoQuery (cfg : WriterCfg) (recordId : String) : String :=
  let url := cfg.baseUrl ++ "/crm/v3/objects/" ++ getEntityPath cfg
  if recordId ≠ "" then url ++ "/" ++ encodeURIComponent recordId else url

/-- Concrete configuration for the C5 witness. -/
def c5cfg : WriterCfg :=
  { baseUrl := "https://api.hubspot.com", entity := "companies",
    idField := "id", idProperty := "" }

/-- Concrete record with `id = 42` for the C5 witness. -/
def c5record : JVal := JVal.vObj [("id", JVal.vStr "42"), ("name", JVal.vStr "A")]

/-- Concrete configuration for the C4 counterexample (direct-id strategy,
default `idField`). -/
def c4cfg : WriterCfg :=
  { baseUrl := "https://api.hubspot.com", entity := "companies",
    idField := "id", idProperty := "" }

/-- Concrete configuration for the C10 witness (custom `idProperty`). -/
def c10cfg : WriterCfg :=
  { baseUrl := "https://api.hubspot.com", entity := "companies",
    idField := "id", idProperty := "extkey" }

/-- Concrete always-found transport for the C10 witness. -/
def c10remote : String → FetchOutcome := fun _ => FetchOutcome.ok (JVal.vObj [])

/-- Concrete record for the C10 witness. -/
def c10record : JVal := JVal.vObj [("id", JVal.vStr "42"), ("name", JVal.vStr "A")]

end DirectWriter

/-!
## Concrete instances used by the claim theorems
-/

namespace SapC4cReader

/-- Reader configuration of the end-to-end pagination scenario:
`pageSize = 2` over `https://x/api`. -/
def scenarioCfg : ReaderCfg :=
  sapC4cInit (JVal.vObj [("baseUrl", JVal.vStr "https://x"),
    ("endpoint", JVal.vStr "/api"), ("pageSize", JVal.vStr "2")])

/-- A page response `{value:[...]}` with no pagination flags. -/
def plainPage (xs : List Int) : JVal :=
  JVal.vObj [("value", JVal.vArr (xs.map JVal.vNum))]

/-- Remote source of the scenario: three pages of sizes 2, 2, 1 keyed by the
exact URLs the reader builds, nothing elsewhere. -/
def scenarioRemote : String → JVal := fun url =>
  if url = "https://x/api?$top=2&$skip=0&sap-label=true" then plainPage [1, 2]
  else if url = "https://x/api?$top=2&$skip=2&sap-label=true" then plainPage [3, 4]
  else if url = "https://x/api?$top=2&$skip=4&sap-label=true" then plainPage [5]
  else JVal.vNull

/-- A full page (2 records at `pageSize = 2`) whose `pagination` block
carries an explicit `has_next: false`. -/
def hasNextFalsePage : JVal :=
  JVal.vObj [("value", JVal.vArr [JVal.vNum 1, JVal.vNum 2]),
             ("pagination", JVal.vObj [("has_next", JVal.vBool false)])]

/-- Reader config blob that also carries a `cap: 2` entry. -/
def capCfgBlob : JVal :=
  JVal.vObj [("baseUrl", JVal.vStr "https://x"), ("endpoint", JVal.vStr "/api"),
             ("pageSize", JVal.vStr "2"), ("cap", JVal.vNum 2)]

/-- Remote source with 3 records (pages of sizes 2 and 1). -/
def capRemote : String → JVal := fun url =>
  if url = "https://x/api?$top=2&$skip=0&sap-label=true" then plainPage [1, 2]
  else if url = "https://x/api?$top=2&$skip=2&sap-label=true" then plainPage [3]
  else JVal.vNull

/-!
## Claim theorems

One theorem per specification claim, with counterexamples and witnesses
where applicable.
-/

/-- C6: with `pageSize = 2` over a remote source answering three pages of
sizes 2, 2, 1 and no explicit pagination flags, a full read emits exactly the
five records in order, issues exactly three fetches with `$skip` values
`0`, `2`, `4` in that order, and terminates after the third (short) page
(`hasMore = false`, and the run is stable under more fuel). -/
theorem c6_pagination_scenario :
    readRecords scenarioCfg scenarioRemote 10 (openReader scenarioCfg) =
      ([JVal.vNum 1, JVal.vNum 2, JVal.vNum 3, JVal.vNum 4, JVal.vNum 5],
       ["https://x/api?$top=2&$skip=0&sap-label=true",
        "https://x/api?$top=2&$skip=2&sap-label=true",
        "https://x/api?$top=2&$skip=4&sap-label=true"],
       { skip := 4, hasMore := false, buffer := [JVal.vNum 5], bufferIndex := 1,
         recordCount := 5 }) ∧
    readRecords scenarioCfg scenarioRemote 100 (openReader scenarioCfg) =
      readRecords scenarioCfg scenarioRemote 10 (openReader scenarioCfg) := by
  constructor <;> rfl


/-- C1 counterexample: a response carrying `has_next=false` does not
terminate the sequence — after fetching a full page with
`pagination.has_next = false`, the reader still has `hasMore = true` and has
advanced its cursor, because `fetchNextPage` never consults the response's
pagination block. -/
theorem c1_counterexample_has_next_ignored :
    (hasNextFalsePage.getField "pagination").bind (fun p => p.getField "has_next") =
      some (JVal.vBool false) ∧
    (fetchNextPage scenarioCfg (fun _ => hasNextFalsePage)
      (openReader scenarioCfg)).1.hasMore = true ∧
    (fetchNextPage scenarioCfg (fun _ => hasNextFalsePage)
      (openReader scenarioCfg)).1.skip = 2 := by
  refine ⟨rfl, rfl, rfl⟩

/-- C1 (amended): the reader's stop condition is the short-page heuristic
alone — a fetch made while `hasMore` holds marks the stream finished exactly
when the page yields fewer records than `pageSize` (explicit `has_next` /
`total_pages` indicators in the response are never consulted), and on a
non-terminal page the skip cursor advances by exactly `pageSize`. -/
theorem c1_short_page_heuristic_only (cfg : ReaderCfg) (getJson : String → JVal)
    (st : RState) (h : st.hasMore = true) :
    ((fetchNextPage cfg getJson st).1.hasMore = false ↔
      ((normalizeRecords (getJson (buildUrl cfg st.skip))).length : Int) <
        cfg.pageSize) ∧
    ((fetchNextPage cfg getJson st).1.hasMore = true →
      (fetchNextPage cfg getJson st).1.skip = st.skip + cfg.pageSize) ∧
    (fetchNextPage cfg getJson st).2 = [buildUrl cfg st.skip] := by
  by_cases hlt : ((normalizeRecords (getJson (buildUrl cfg st.skip))).length : Int) <
      cfg.pageSize <;>
    simp [fetchNextPage, h, hlt]

/-- Witness for `c1_short_page_heuristic_only` at a concrete short page. -/
theorem c1_short_page_heuristic_only_witness :
    (openReader scenarioCfg).hasMore = true ∧
    ((fetchNextPage scenarioCfg (fun _ => plainPage [1])
        (openReader scenarioCfg)).1.hasMore = false ↔
      ((normalizeRecords ((fun (_ : String) => plainPage [1])
          (buildUrl scenarioCfg (openReader scenarioCfg).skip))).length : Int) <
        scenarioCfg.pageSize) :=
  ⟨rfl, (c1_short_page_heuristic_only scenarioCfg (fun _ => plainPage [1])
    (openReader scenarioCfg) rfl).1⟩



/-- C2 counterexample: with `cap = 2` configured and a remote source holding
3 records, the reader emits 3 records — the emitted count exceeds the
configured cap, refuting the record-cap claim. -/
theorem c2_counterexample_cap_exceeded :
    getConfigValue capCfgBlob "cap" JVal.vNull = JVal.vNum 2 ∧
    (readRecords (sapC4cInit capCfgBlob) capRemote 10
      (openReader (sapC4cInit capCfgBlob))).1.length = 3 ∧
    2 < (readRecords (sapC4cInit capCfgBlob) capRemote 10
      (openReader (sapC4cInit capCfgBlob))).1.length := by
  refine ⟨rfl, rfl, by decide⟩

/-- C2 (amended): the reader supports no record cap — a `cap` entry in the
configuration leaves the derived reader configuration (and hence the whole
run) unchanged, and a full read emits every remote record; in particular the
3-record source above is emitted in full despite the configured `cap = 2`. -/
theorem c2_no_cap_mechanism :
    (∀ (v : JVal) (rest : List (String × JVal)),
      sapC4cInit (JVal.vObj (("cap", v) :: rest)) = sapC4cInit (JVal.vObj rest)) ∧
    (readRecords (sapC4cInit capCfgBlob) capRemote 10
      (openReader (sapC4cInit capCfgBlob))).1 =
      [JVal.vNum 1, JVal.vNum 2, JVal.vNum 3] := by
  exact ⟨fun v rest => rfl, rfl⟩

/-- C8 counterexample: the reader does not accept the `{data:[...]}` response
shape — `normalizeRecords` extracts no records from it, while the claim
says the carried record is obtained. -/
theorem c8_counterexample_data_shape :
    normalizeRecords (JVal.vObj [("data", JVal.vArr [JVal.vNum 1])]) = [] ∧
    normalizeRecords (JVal.vObj [("data", JVal.vArr [JVal.vNum 1])]) ≠
      [JVal.vNum 1] := by
  constructor
  · rfl
  · intro h
    exact List.noConfusion h

/-- C8 (amended): `normalizeRecords` extracts the same record sequence from
each of the three shapes `{d:{results:[...]}}`, `{value:[...]}` and
`{results:[...]}`; the fourth claimed shape `{data:[...]}` yields no
records. -/
theorem c8_response_shapes (rs : List JVal) :
    normalizeRecords (JVal.vObj [("d", JVal.vObj [("results", JVal.vArr rs)])]) = rs ∧
    normalizeRecords (JVal.vObj [("value", JVal.vArr rs)]) = rs ∧
    normalizeRecords (JVal.vObj [("results", JVal.vArr rs)]) = rs ∧
    normalizeRecords (JVal.vObj [("data", JVal.vArr rs)]) = [] := by
  refine ⟨rfl, rfl, rfl, rfl⟩

end SapC4cReader

open HubspotTables in
/-- C7: property-resolution precedence — an input key that is an exact known
property of the entity is returned unchanged (regardless of any alias entry
for it, since the alias table is consulted only after the known-name check),
and a key that is neither known nor aliased is never rejected, only
lower-cased and passed through. -/
theorem c7_alias_precedence (entity key : String) :
    ((HUBSPOT_PROPERTIES entity).contains key = true →
      SearchWriter.mapPropertyName entity key = key) ∧
    ((HUBSPOT_PROPERTIES entity).contains key = false →
      (PROPERTY_ALIASES entity).lookup key = none →
      SearchWriter.mapPropertyName entity key = toLowerJS key) := by
  constructor
  · intro h
    have h' : key ∈ HUBSPOT_PROPERTIES entity := by simpa using h
    simp [SearchWriter.mapPropertyName, h']
  · intro h1 h2
    have h1' : key ∉ HUBSPOT_PROPERTIES entity := by simpa using h1
    simp [SearchWriter.mapPropertyName, h1', h2]

open HubspotTables in
/-- Witness for `c7_alias_precedence`: the known key `name` (which also has
an alias entry `Name → name`) is kept, and the unknown key `Foo_Bar` is
lower-cased. -/
theorem c7_alias_precedence_witness :
    (HUBSPOT_PROPERTIES "companies").contains "name" = true ∧
    SearchWriter.mapPropertyName "companies" "name" = "name" ∧
    (HUBSPOT_PROPERTIES "companies").contains "Foo_Bar" = false ∧
    (PROPERTY_ALIASES "companies").lookup "Foo_Bar" = none ∧
    SearchWriter.mapPropertyName "companies" "Foo_Bar" = toLowerJS "Foo_Bar" :=
  ⟨rfl, (c7_alias_precedence "companies" "name").1 rfl, rfl, rfl,
   (c7_alias_precedence "companies" "Foo_Bar").2 rfl rfl⟩

namespace DirectWriter


/-- `buildUrl` is the bare object URL plus the `?idProperty=` parameter
exactly when a custom `idProperty` is configured. -/
theorem buildUrl_eq_objectUrl (cfg : WriterCfg) (recordId : String) :
    buildUrl cfg recordId =
      if cfg.idProperty ≠ "" then
        objectUrlNoQuery cfg recordId ++ "?idProperty=" ++
          encodeURIComponent cfg.idProperty
      else objectUrlNoQuery cfg recordId := rfl

/-- Every remote call of a `writeRecord` run goes to the object URL built for
the resolved record id or to the collection URL (`buildUrl` of the empty
id). -/
theorem writeRecord_call_urls (cfg : WriterCfg) (getJson : String → FetchOutcome)
    (record : JVal) :
    ∀ c ∈ (writeRecord cfg getJson record).1,
      callUrl c = buildUrl cfg (getRecordId cfg record) ∨
      callUrl c = buildUrl cfg "" := by
  intro c hc
  unfold writeRecord retrieveExists at hc
  by_cases h : getRecordId cfg record = ""
  · rw [if_neg (not_not_intro h)] at hc
    simp at hc
    subst hc
    exact Or.inr rfl
  · rw [if_pos h, if_neg h] at hc
    rcases hg : getJson (buildUrl cfg (getRecordId cfg record)) with v | m <;>
      rw [hg] at hc
    · simp at hc
      rcases hc with rfl | rfl
      · exact Or.inl rfl
      · exact Or.inl rfl
    · by_cases hn : isNotFound m = true
      · simp [hn] at hc
        rcases hc with rfl | rfl
        · exact Or.inl rfl
        · exact Or.inr rfl
      · simp [hn] at hc
        subst hc
        exact Or.inl rfl

/-- C10: in the direct-id writer, whenever a custom `idProperty` is
configured every URL of every issued call — the retrieve `get`, the create
`post` to the collection endpoint, and the update `patch` alike — ends with
the `?idProperty=` query parameter; with no `idProperty` configured, every
issued call goes to a bare object URL with no query parameter. -/
theorem c10_idProperty_query_parameter (cfg : WriterCfg)
    (getJson : String → FetchOutcome) (record : JVal) :
    (cfg.idProperty ≠ "" →
      ∀ c ∈ (writeRecord cfg getJson record).1,
        ∃ core, callUrl c = core ++ "?idProperty=" ++
          encodeURIComponent cfg.idProperty) ∧
    (cfg.idProperty = "" →
      ∀ c ∈ (writeRecord cfg getJson record).1,
        callUrl c = objectUrlNoQuery cfg (getRecordId cfg record) ∨
        callUrl c = objectUrlNoQuery cfg "") := by
  constructor
  · intro h c hc
    rcases writeRecord_call_urls cfg getJson record c hc with h1 | h1
    · exact ⟨objectUrlNoQuery cfg (getRecordId cfg record), by
        rw [h1, buildUrl_eq_objectUrl, if_pos h]⟩
    · exact ⟨objectUrlNoQuery cfg "", by
        rw [h1, buildUrl_eq_objectUrl, if_pos h]⟩
  · intro h c hc
    rcases writeRecord_call_urls cfg getJson record c hc with h1 | h1
    · exact Or.inl (by rw [h1, buildUrl_eq_objectUrl, if_neg (by simp [h])])
    · exact Or.inr (by rw [h1, buildUrl_eq_objectUrl, if_neg (by simp [h])])

/-- C5: direct-id upsert error handling — whenever a non-empty id is
resolved from the record, `writeRecord` first issues the retrieve `get` for
that id; if the retrieve succeeds it issues exactly one `patch` (and no
`post`) to the object-by-id URL; if the retrieve throws a not-found-class
error it issues exactly one `post` (and no `patch`) to the collection URL;
and if the retrieve throws any other error, that error propagates and no
write call is issued at all. -/
theorem c5_direct_id_error_handling (cfg : WriterCfg)
    (getJson : String → FetchOutcome) (record : JVal)
    (h : getRecordId cfg record ≠ "") :
    (∀ v, getJson (buildUrl cfg (getRecordId cfg record)) = FetchOutcome.ok v →
      writeRecord cfg getJson record =
        ([RemoteCall.getCall (buildUrl cfg (getRecordId cfg record)),
          RemoteCall.patch (buildUrl cfg (getRecordId cfg record))
            (jsonStringify (JVal.vObj
              [("properties", JVal.vObj (buildProperties cfg record))]))], none) ∧
      countPatch (writeRecord cfg getJson record).1 = 1 ∧
      countPost (writeRecord cfg getJson record).1 = 0) ∧
    (∀ m, getJson (buildUrl cfg (getRecordId cfg record)) = FetchOutcome.thrown m →
      isNotFound m = true →
      writeRecord cfg getJson record =
        ([RemoteCall.getCall (buildUrl cfg (getRecordId cfg record)),
          RemoteCall.post (buildUrl cfg "")
            (jsonStringify (JVal.vObj
              [("properties", JVal.vObj (buildProperties cfg record))]))], none) ∧
      countPost (writeRecord cfg getJson record).1 = 1 ∧
      countPatch (writeRecord cfg getJson record).1 = 0) ∧
    (∀ m, getJson (buildUrl cfg (getRecordId cfg record)) = FetchOutcome.thrown m →
      isNotFound m = false →
      writeRecord cfg getJson record =
        ([RemoteCall.getCall (buildUrl cfg (getRecordId cfg record))], some m)) := by
  refine ⟨?_, ?_, ?_⟩
  · intro v hv
    have hw : writeRecord cfg getJson record =
        ([RemoteCall.getCall (buildUrl cfg (getRecordId cfg record)),
          RemoteCall.patch (buildUrl cfg (getRecordId cfg record))
            (jsonStringify (JVal.vObj
              [("properties", JVal.vObj (buildProperties cfg record))]))], none) := by
      unfold writeRecord retrieveExists
      rw [if_pos h, if_neg h, hv]
      rfl
    rw [hw]
    exact ⟨rfl, rfl, rfl⟩
  · intro m hm hn
    have hw : writeRecord cfg getJson record =
        ([RemoteCall.getCall (buildUrl cfg (getRecordId cfg record)),
          RemoteCall.post (buildUrl cfg "")
            (jsonStringify (JVal.vObj
              [("properties", JVal.vObj (buildProperties cfg record))]))], none) := by
      unfold writeRecord retrieveExists
      rw [if_pos h, if_neg h, hm]
      simp [hn]
    rw [hw]
    exact ⟨rfl, rfl, rfl⟩
  · intro m hm hn
    unfold writeRecord retrieveExists
    rw [if_pos h, if_neg h, hm]
    simp [hn]


/-- Witness for `c5_direct_id_error_handling`: a concrete run whose retrieve
succeeds issues exactly one `patch` and no `post`. -/
theorem c5_direct_id_error_handling_witness :
    getRecordId c5cfg c5record ≠ "" ∧
    countPatch (writeRecord c5cfg (fun _ => FetchOutcome.ok (JVal.vObj []))
      c5record).1 = 1 ∧
    countPost (writeRecord c5cfg (fun _ => FetchOutcome.ok (JVal.vObj []))
      c5record).1 = 0 :=
  ⟨by decide,
   ((c5_direct_id_error_handling c5cfg (fun _ => FetchOutcome.ok (JVal.vObj []))
      c5record (by decide)).1 (JVal.vObj []) rfl).2⟩


/-- C4 counterexample: the direct-id writer is not a no-op on a record that
normalizes to zero properties — the empty record yields an empty properties
mapping under both normalizers, yet `writeRecord` still issues a remote
`post`. -/
theorem c4_counterexample_direct_writer_posts :
    SearchWriter.transformToProperties "companies" (JVal.vObj []) = [] ∧
    buildProperties c4cfg (JVal.vObj []) = [] ∧
    countPost (writeRecord c4cfg (fun _ => FetchOutcome.ok (JVal.vObj []))
      (JVal.vObj [])).1 = 1 ∧
    (writeRecord c4cfg (fun _ => FetchOutcome.ok (JVal.vObj []))
      (JVal.vObj [])).1 ≠ [] := by
  refine ⟨rfl, rfl, rfl, ?_⟩
  intro hcontra
  exact List.noConfusion hcontra


/-- Witness for `c10_idProperty_query_parameter`: the retrieve `get` of a
concrete run with `idProperty = "extkey"` carries the query parameter. -/
theorem c10_idProperty_query_parameter_witness :
    ∃ core,
      callUrl (RemoteCall.getCall
        "https://api.hubspot.com/crm/v3/objects/companies/42?idProperty=extkey") =
        core ++ "?idProperty=" ++ encodeURIComponent c10cfg.idProperty :=
  (c10_idProperty_query_parameter c10cfg c10remote c10record).1 (by decide)
    (RemoteCall.getCall
      "https://api.hubspot.com/crm/v3/objects/companies/42?idProperty=extkey")
    (by decide)

end DirectWriter

/-- C4 (amended): the zero-property no-op holds for the search-by-property
writer — a record whose normalization is the empty mapping causes no remote
call of any kind and no error (the direct-id writer, by contrast, still
issues its write; see the counterexample). -/
theorem c4_search_writer_zero_properties_noop (cfg : SearchWriter.WriterCfg)
    (postJson : String → JVal → JVal) (record : JVal)
    (h : SearchWriter.transformToProperties cfg.entity record = []) :
    SearchWriter.writeRecord cfg postJson record = [] := by
  unfold SearchWriter.writeRecord
  rw [h]
  rfl

/-- Witness for `c4_search_writer_zero_properties_noop`: a record whose only
entry has an empty value normalizes to zero properties and is written
nowhere. -/
theorem c4_search_writer_zero_properties_noop_witness :
    SearchWriter.transformToProperties "companies"
      (JVal.vObj [("name", JVal.vStr "")]) = [] ∧
    SearchWriter.writeRecord
      { baseUrl := "https://api.hubspot.com", entity := "companies",
        lookupProperty := "" }
      (fun _ _ => JVal.vObj []) (JVal.vObj [("name", JVal.vStr "")]) = [] :=
  ⟨rfl, c4_search_writer_zero_properties_noop
    { baseUrl := "https://api.hubspot.com", entity := "companies",
      lookupProperty := "" }
    (fun _ _ => JVal.vObj []) (JVal.vObj [("name", JVal.vStr "")]) rfl⟩

namespace SearchWriter

/-- A non-skipped value is neither `null` nor the empty string. -/
theorem skipValue_eq_false {v : JVal} (h : skipValue v = false) :
    v ≠ JVal.vNull ∧ v ≠ JVal.vStr "" := by
  cases v with
  | vNull => simp [skipValue] at h
  | vStr s =>
    refine ⟨by intro hcontra; exact JVal.noConfusion hcontra, ?_⟩
    intro hcontra
    cases hcontra
    simp [skipValue] at h
  | vBool b => exact ⟨by intro hc; exact JVal.noConfusion hc,
      by intro hc; exact JVal.noConfusion hc⟩
  | vNum n => exact ⟨by intro hc; exact JVal.noConfusion hc,
      by intro hc; exact JVal.noConfusion hc⟩
  | vArr xs => exact ⟨by intro hc; exact JVal.noConfusion hc,
      by intro hc; exact JVal.noConfusion hc⟩
  | vObj ps => exact ⟨by intro hc; exact JVal.noConfusion hc,
      by intro hc; exact JVal.noConfusion hc⟩

/-- A successful association-list lookup locates a member pair. -/
theorem lookup_mem {α : Type} {l : List (String × α)} {k : String} {v : α}
    (h : l.lookup k = some v) : (k, v) ∈ l := by
  induction l with
  | nil => cases h
  | cons p t ih =>
    rw [List.lookup] at h
    split at h
    · rename_i heq
      cases h
      have hk : k = p.1 := by simpa using heq
      subst hk
      simp
    · exact List.mem_cons_of_mem _ (ih h)

/-- A lookup in a string-valued object only returns `vStr` values. -/
theorem lookup_propsToJVal {m : List (String × String)} {key : String} {v : JVal}
    (h : (m.map fun p => (p.1, JVal.vStr p.2)).lookup key = some v) :
    ∃ s, v = JVal.vStr s := by
  induction m with
  | nil => cases h
  | cons p t ih =>
    rw [List.map_cons, List.lookup] at h
    split at h
    · cases h
      exact ⟨p.2, rfl⟩
    · exact ih h

/-- Members of `setProp l k v` are the new pair or members of `l`. -/
theorem setProp_mem {α : Type} {l : List (String × α)} {k : String} {v : α}
    {p : String × α} (h : p ∈ setProp l k v) : p = (k, v) ∨ p ∈ l := by
  unfold setProp at h
  by_cases ha : l.any (fun q => q.1 = k) = true
  · rw [if_pos ha] at h
    rcases List.mem_map.mp h with ⟨q, hq, hfq⟩
    by_cases hqk : q.1 = k
    · rw [if_pos hqk] at hfq
      exact Or.inl hfq.symm
    · rw [if_neg hqk] at hfq
      exact Or.inr (hfq ▸ hq)
  · rw [if_neg ha] at h
    rcases List.mem_append.mp h with h' | h'
    · exact Or.inr h'
    · exact Or.inl (List.mem_singleton.mp h')

/-- `setProp` leaves the key list unchanged on update and appends the new
key otherwise. -/
theorem setProp_keys {α : Type} (l : List (String × α)) (k : String) (v : α) :
    (setProp l k v).map Prod.fst =
      if l.any (fun q => q.1 = k) then l.map Prod.fst
      else l.map Prod.fst ++ [k] := by
  unfold setProp
  by_cases ha : l.any (fun q => q.1 = k) = true
  · rw [if_pos ha, if_pos ha, List.map_map]
    refine List.map_congr_left ?_
    intro q _
    by_cases hqk : q.1 = k
    · simp [hqk]
    · simp [hqk]
  · rw [if_neg ha, if_neg ha, List.map_append]
    rfl

/-- `setProp` preserves distinctness of keys. -/
theorem setProp_keys_nodup {α : Type} {l : List (String × α)} {k : String}
    {v : α} (h : (l.map Prod.fst).Nodup) :
    ((setProp l k v).map Prod.fst).Nodup := by
  rw [setProp_keys]
  by_cases ha : l.any (fun q => q.1 = k) = true
  · rw [if_pos ha]
    exact h
  · rw [if_neg ha]
    have hk : k ∉ l.map Prod.fst := by
      intro hmem
      rcases List.mem_map.mp hmem with ⟨q, hq, hqk⟩
      exact ha (List.any_eq_true.mpr ⟨q, hq, by simpa using hqk⟩)
    simpa using List.Nodup.append h (List.nodup_singleton k)
      (by simpa using hk)

end SearchWriter

namespace SearchWriter

/-- Lowering a character never yields an ASCII upper-case letter. -/
theorem isUpperA_charToLowerJS (c : Char) : isUpperA (charToLowerJS c) = false := by
  unfold charToLowerJS
  by_cases h : 65 ≤ c.toNat ∧ c.toNat ≤ 90
  · rw [if_pos h]
    have hn : (Char.ofNat (c.toNat + 32)).toNat = c.toNat + 32 := by
      have hv : (c.toNat + 32).isValidChar := Or.inl (by omega)
      rw [Char.ofNat, dif_pos hv]
      rfl
    unfold isUpperA
    rw [hn]
    simp
    omega
  · rw [if_neg h]
    unfold isUpperA
    simpa using h

/-- Lowering is the identity on characters that are not ASCII upper-case. -/
theorem charToLowerJS_eq_self {c : Char} (h : isUpperA c = false) :
    charToLowerJS c = c := by
  unfold charToLowerJS
  unfold isUpperA at h
  rw [if_neg (by simpa using h)]

/-- `toLowerJS` output carries no ASCII upper-case letter. -/
theorem noUpper_toLowerJS (s : String) : noUpper (toLowerJS s) = true := by
  unfold toLowerJS noUpper
  rw [List.all_eq_true]
  intro c hc
  rcases List.mem_map.mp hc with ⟨c0, _, rfl⟩
  simp [isUpperA_charToLowerJS]

/-- `toLowerJS` is the identity on strings with no ASCII upper-case letter. -/
theorem toLowerJS_eq_self {s : String} (h : noUpper s = true) :
    toLowerJS s = s := by
  unfold toLowerJS
  unfold noUpper at h
  rw [List.all_eq_true] at h
  have hmap : s.data.map charToLowerJS = s.data := by
    conv_rhs => rw [← List.map_id s.data]
    refine List.map_congr_left ?_
    intro c hc
    have hcl : isUpperA c = false := by simpa using h c hc
    simpa using charToLowerJS_eq_self hcl
  rw [hmap]

end SearchWriter

namespace SearchWriter

open HubspotTables

/-- The four entities exhaust the non-empty property/alias tables. -/
theorem tables_entity_cases (e : String) :
    e = "companies" ∨ e = "contacts" ∨ e = "deals" ∨ e = "tickets" ∨
      (HUBSPOT_PROPERTIES e = [] ∧ PROPERTY_ALIASES e = []) := by
  by_cases h1 : e = "companies"
  · exact Or.inl h1
  by_cases h2 : e = "contacts"
  · exact Or.inr (Or.inl h2)
  by_cases h3 : e = "deals"
  · exact Or.inr (Or.inr (Or.inl h3))
  by_cases h4 : e = "tickets"
  · exact Or.inr (Or.inr (Or.inr (Or.inl h4)))
  refine Or.inr (Or.inr (Or.inr (Or.inr ⟨?_, ?_⟩))) <;>
    simp [HUBSPOT_PROPERTIES, PROPERTY_ALIASES, h1, h2, h3, h4]

/-- Every alias value is a known property of its entity. -/
theorem alias_values_known (e : String) :
    ∀ p ∈ PROPERTY_ALIASES e, p.2 ∈ HUBSPOT_PROPERTIES e := by
  rcases tables_entity_cases e with h | h | h | h | ⟨_, h⟩ <;>
    first
      | (subst h; decide)
      | (rw [h]; intro p hp; cases hp)

/-- Every known property has no upper-case letter and survives the key
filter. -/
theorem known_props_kept (e : String) :
    ∀ k ∈ HUBSPOT_PROPERTIES e, noUpper k = true ∧ keyKeptP k := by
  rcases tables_entity_cases e with h | h | h | h | ⟨h, _⟩ <;>
    first
      | (subst h; decide)
      | (rw [h]; intro k hk; cases hk)

/-- A resolved property name is either a known property or the lower-cased
input key. -/
theorem mapPropertyName_cases (e k : String) :
    mapPropertyName e k ∈ HUBSPOT_PROPERTIES e ∨
      mapPropertyName e k = toLowerJS k := by
  unfold mapPropertyName
  by_cases h1 : (HUBSPOT_PROPERTIES e).contains k
  · rw [if_pos h1]
    exact Or.inl (by simpa using h1)
  · rw [if_neg h1]
    cases halias : (PROPERTY_ALIASES e).lookup k with
    | some v => exact Or.inl (alias_values_known e _ (lookup_mem halias))
    | none =>
      right
      simp

/-- A known property resolves to itself. -/
theorem mapPropertyName_of_known {e k : String} (h : k ∈ HUBSPOT_PROPERTIES e) :
    mapPropertyName e k = k := by
  unfold mapPropertyName
  rw [if_pos (by simpa using h)]

/-- A surviving key in the image of `mapPropertyName` is a fixed point of a
further resolution, and its resolution survives the key filter. -/
theorem mapPropertyName_stable (e : String) {k1 : String}
    (hk : ∃ k0, k1 = mapPropertyName e k0) (hkept : keyKeptP k1) :
    keyKeptP (mapPropertyName e k1) ∧
      mapPropertyName e (mapPropertyName e k1) = mapPropertyName e k1 := by
  rcases hk with ⟨k0, rfl⟩
  rcases mapPropertyName_cases e k0 with hknown | hlow
  · have hfix : mapPropertyName e (mapPropertyName e k0) = mapPropertyName e k0 :=
      mapPropertyName_of_known hknown
    rw [hfix]
    exact ⟨hkept, hfix⟩
  · have hnup : noUpper (mapPropertyName e k0) = true := by
      rw [hlow]
      exact noUpper_toLowerJS k0
    rcases mapPropertyName_cases e (mapPropertyName e k0) with h2 | h2
    · exact ⟨(known_props_kept e _ h2).2, mapPropertyName_of_known h2⟩
    · have hfix : mapPropertyName e (mapPropertyName e k0) = mapPropertyName e k0 :=
        h2.trans (toLowerJS_eq_self hnup)
      rw [hfix]
      exact ⟨hkept, hfix⟩

end SearchWriter

namespace SearchWriter

/-- Every entry produced by the `transformToProperties` fold is either an
accumulator entry or the resolved, stringified form of a surviving input
entry. -/
theorem transform_foldl_spec (e : String) (l : List (String × JVal))
    (acc : List (String × String)) :
    ∀ p ∈ l.foldl (transformStep e) acc,
      p ∈ acc ∨ ∃ kv ∈ l, skipValue kv.2 = false ∧ keyKeptP kv.1 ∧
        p = (mapPropertyName e kv.1, jsToString kv.2) := by
  induction l generalizing acc with
  | nil =>
    intro p hp
    exact Or.inl hp
  | cons kv t ih =>
    intro p hp
    rw [List.foldl_cons] at hp
    rcases ih (transformStep e acc kv) p hp with hacc | ⟨kv', hkv', hspec⟩
    · unfold transformStep at hacc
      by_cases h1 : skipValue kv.2 = true
      · rw [if_pos h1] at hacc
        exact Or.inl hacc
      · rw [if_neg h1] at hacc
        by_cases h2 : charsHaveLead kv.1.data "_chioro".data = true
        · rw [if_pos h2] at hacc
          exact Or.inl hacc
        · rw [if_neg h2] at hacc
          by_cases h3 : kv.1 = "__metadata" ∨ kv.1 = "ObjectID" ∨ kv.1 = "ETag" ∨
              kv.1 = "uri"
          · rw [if_pos h3] at hacc
            exact Or.inl hacc
          · rw [if_neg h3] at hacc
            rcases setProp_mem hacc with heq | hmem
            · exact Or.inr ⟨kv, List.mem_cons_self kv t,
                Bool.not_eq_true _ ▸ h1, ⟨h2, h3⟩, heq⟩
            · exact Or.inl hmem
    · exact Or.inr ⟨kv', List.mem_cons_of_mem _ hkv', hspec⟩

/-- The `transformToProperties` fold keeps the accumulator's keys distinct. -/
theorem transform_foldl_nodup (e : String) (l : List (String × JVal))
    (acc : List (String × String)) (h : (acc.map Prod.fst).Nodup) :
    ((l.foldl (transformStep e) acc).map Prod.fst).Nodup := by
  induction l generalizing acc with
  | nil => exact h
  | cons kv t ih =>
    rw [List.foldl_cons]
    refine ih _ ?_
    unfold transformStep
    split
    · exact h
    · split
      · exact h
      · split
        · exact h
        · exact setProp_keys_nodup h

/-- The fold is the identity (modulo appending to the accumulator) on a
string-valued mapping whose entries are non-empty, surviving, and fixed
points of property resolution. -/
theorem transform_foldl_stable (e : String) (l : List (String × String)) :
    ∀ acc : List (String × String),
      (∀ p ∈ l, p.2 ≠ "" ∧ keyKeptP p.1 ∧ mapPropertyName e p.1 = p.1) →
      (l.map Prod.fst).Nodup →
      (∀ p ∈ l, p.1 ∉ acc.map Prod.fst) →
      (l.map fun p => (p.1, JVal.vStr p.2)).foldl (transformStep e) acc =
        acc ++ l := by
  induction l with
  | nil =>
    intro acc _ _ _
    simp
  | cons p t ih =>
    intro acc hstable hnodup hdisj
    obtain ⟨hv, hkept, hfix⟩ := hstable p (List.mem_cons_self p t)
    rw [List.map_cons, List.foldl_cons]
    have hstep : transformStep e acc (p.1, JVal.vStr p.2) = acc ++ [p] := by
      unfold transformStep
      rw [if_neg (by simp [skipValue, hv]), if_neg hkept.1, if_neg hkept.2]
      show setProp acc (mapPropertyName e p.1) p.2 = acc ++ [p]
      rw [hfix]
      unfold setProp
      rw [if_neg ?hany]
      case hany =>
        intro hc
        rcases List.any_eq_true.mp hc with ⟨q, hq, hqk⟩
        exact hdisj p (List.mem_cons_self p t)
          (List.mem_map.mpr ⟨q, hq, by simpa using hqk⟩)
    rw [hstep]
    have ht := ih (acc ++ [p])
      (fun q hq => hstable q (List.mem_cons_of_mem _ hq))
      (by simpa using hnodup.of_cons)
      ?hdisj2
    · rw [ht]
      simp
    case hdisj2 =>
      intro q hq
      rw [List.map_append, List.mem_append]
      rintro (hqa | hqp)
      · exact hdisj q (List.mem_cons_of_mem _ hq) hqa
      · have hqp1 : q.1 = p.1 := by simpa using hqp
        have hp1 : p.1 ∉ t.map Prod.fst := by
          have := hnodup
          rw [List.map_cons, List.nodup_cons] at this
          exact this.1
        exact hp1 (List.mem_map.mpr ⟨q, hq, hqp1.symm ▸ rfl⟩)

/-- Re-reading a string-valued mapping as a JS object flattens back to the
same entries (the `properties` unwrapping cannot fire: every value is a
string). -/
theorem normalizeToFlat_propsToJVal (m : List (String × String)) :
    normalizeToFlat (propsToJVal m) = m.map fun p => (p.1, JVal.vStr p.2) := by
  unfold normalizeToFlat propsToJVal
  cases hl : (m.map fun p => (p.1, JVal.vStr p.2)).lookup "properties" with
  | none => simp [JVal.truthy, JVal.getField, hl, toEntries]
  | some v =>
    rcases lookup_propsToJVal hl with ⟨s, rfl⟩
    simp [JVal.truthy, JVal.getField, hl, toEntries]

end SearchWriter

namespace SearchWriter

/-- C9 counterexample: normalization output can contain an excluded key and
an empty-string value — the case-variant input key `URI` is lower-cased onto
the excluded key `uri`, and an empty-array value stringifies to `""` yet
passes the empty-value filter. -/
theorem c9_counterexample_excluded_key_empty_value :
    transformToProperties "companies"
      (JVal.vObj [("URI", JVal.vStr "x"), ("name", JVal.vArr [])]) =
      [("uri", "x"), ("name", "")] ∧
    ("uri", "x") ∈ transformToProperties "companies"
      (JVal.vObj [("URI", JVal.vStr "x"), ("name", JVal.vArr [])]) ∧
    ("name", "") ∈ transformToProperties "companies"
      (JVal.vObj [("URI", JVal.vStr "x"), ("name", JVal.vArr [])]) := by
  refine ⟨rfl, by decide, by decide⟩

/-- C9 (amended): every entry of the normalization output arises from a flat
input entry whose value was neither `null` nor the empty string and whose key
was neither `_chioro`-prefixed nor one of the exact excluded keys
`__metadata`, `ObjectID`, `ETag`, `uri`; the output key is that key's
resolution and the output value the input value's string form.  (The
resolved key may itself coincide with an excluded name, and a stringified
non-empty value may be empty, as the counterexample shows.) -/
theorem c9_output_entry_provenance (e : String) (x : JVal)
    (p : String × String) (hp : p ∈ transformToProperties e x) :
    ∃ k0 v0, (k0, v0) ∈ normalizeToFlat x ∧
      v0 ≠ JVal.vNull ∧ v0 ≠ JVal.vStr "" ∧
      charsHaveLead k0.data "_chioro".data = false ∧
      k0 ≠ "__metadata" ∧ k0 ≠ "ObjectID" ∧ k0 ≠ "ETag" ∧ k0 ≠ "uri" ∧
      p.1 = mapPropertyName e k0 ∧ p.2 = jsToString v0 := by
  rcases transform_foldl_spec e (normalizeToFlat x) [] p hp with
    hacc | ⟨kv, hkv, hskip, hkept, hpe⟩
  · cases hacc
  · obtain ⟨hnn, hne⟩ := skipValue_eq_false hskip
    refine ⟨kv.1, kv.2, hkv, hnn, hne, ?_, ?_, ?_, ?_, ?_, ?_, ?_⟩
    · exact Bool.not_eq_true _ ▸ hkept.1
    · exact fun hc => hkept.2 (Or.inl hc)
    · exact fun hc => hkept.2 (Or.inr (Or.inl hc))
    · exact fun hc => hkept.2 (Or.inr (Or.inr (Or.inl hc)))
    · exact fun hc => hkept.2 (Or.inr (Or.inr (Or.inr hc)))
    · rw [hpe]
    · rw [hpe]

/-- Witness for `c9_output_entry_provenance` at a concrete record. -/
theorem c9_output_entry_provenance_witness :
    (("name", "Acme") ∈ transformToProperties "companies"
      (JVal.vObj [("name", JVal.vStr "Acme")])) ∧
    ∃ k0 v0, (k0, v0) ∈ normalizeToFlat (JVal.vObj [("name", JVal.vStr "Acme")]) ∧
      v0 ≠ JVal.vNull ∧ v0 ≠ JVal.vStr "" ∧
      charsHaveLead k0.data "_chioro".data = false ∧
      k0 ≠ "__metadata" ∧ k0 ≠ "ObjectID" ∧ k0 ≠ "ETag" ∧ k0 ≠ "uri" ∧
      ("name", "Acme").1 = mapPropertyName "companies" k0 ∧
      ("name", "Acme").2 = jsToString v0 :=
  ⟨by decide, c9_output_entry_provenance "companies"
    (JVal.vObj [("name", JVal.vStr "Acme")]) ("name", "Acme") (by decide)⟩

/-- C3 counterexample: normalization is not idempotent — the record
`{COMPANY_NAME: "Acme"}` normalizes to `{company_name: "Acme"}` (the unknown
key is only lower-cased), but normalizing that output again rewrites the key
through the alias table to `{name: "Acme"}`. -/
theorem c3_counterexample_not_idempotent :
    transformToProperties "companies"
      (JVal.vObj [("COMPANY_NAME", JVal.vStr "Acme")]) =
      [("company_name", "Acme")] ∧
    transformToProperties "companies" (propsToJVal
      (transformToProperties "companies"
        (JVal.vObj [("COMPANY_NAME", JVal.vStr "Acme")]))) =
      [("name", "Acme")] ∧
    ([("name", "Acme")] : List (String × String)) ≠ [("company_name", "Acme")] := by
  refine ⟨rfl, rfl, by decide⟩

/-- C3 (amended): normalization reaches a fixed point after two applications
rather than one — for every entity and every input record, applying
`transformToProperties` to the re-read output of its second application
reproduces that output exactly (`normalize ∘ normalize` is idempotent, while
`normalize` itself is not). -/
theorem c3_normalize_twice_idempotent (e : String) (x : JVal) :
    transformToProperties e (propsToJVal
      (transformToProperties e (propsToJVal (transformToProperties e x)))) =
    transformToProperties e (propsToJVal (transformToProperties e x)) := by
  set m1 := transformToProperties e x with hm1
  set m2 := transformToProperties e (propsToJVal m1) with hm2
  have hkey1 : ∀ p ∈ m1, ∃ k0, Prod.fst p = mapPropertyName e k0 := by
    intro p hp
    rcases transform_foldl_spec e (normalizeToFlat x) [] p hp with
      hacc | ⟨kv, _, _, _, hpe⟩
    · cases hacc
    · exact ⟨kv.1, by rw [hpe]⟩
  have hstable : ∀ p ∈ m2, p.2 ≠ "" ∧ keyKeptP p.1 ∧
      mapPropertyName e p.1 = p.1 := by
    intro p hp
    have hp' : p ∈ (normalizeToFlat (propsToJVal m1)).foldl (transformStep e) [] :=
      hp
    rw [normalizeToFlat_propsToJVal] at hp'
    rcases transform_foldl_spec e _ [] p hp' with
      hacc | ⟨kv, hkv, hskip, hkept, hpe⟩
    · cases hacc
    · rcases List.mem_map.mp hkv with ⟨q, hq, rfl⟩
      have hs : q.2 ≠ "" := by
        intro hq2
        simp [skipValue, hq2] at hskip
      rcases hkey1 q hq with ⟨k0, hk0⟩
      obtain ⟨hkk, hff⟩ := mapPropertyName_stable e ⟨k0, hk0⟩ hkept
      have hpe' : p = (mapPropertyName e q.1, q.2) := hpe
      rw [hpe']
      exact ⟨hs, hkk, hff⟩
  have hnodup2 : (m2.map Prod.fst).Nodup := by
    have hrw : m2 = (normalizeToFlat (propsToJVal m1)).foldl (transformStep e) [] :=
      rfl
    rw [hrw]
    exact transform_foldl_nodup e _ [] (by simp)
  have hfinal : transformToProperties e (propsToJVal m2) =
      (m2.map fun p => (p.1, JVal.vStr p.2)).foldl (transformStep e) [] := by
    unfold transformToProperties
    rw [normalizeToFlat_propsToJVal]
  rw [hfinal, transform_foldl_stable e m2 [] hstable hnodup2 (by simp)]
  simp

end SearchWriter
